import Mathlib

/-!
Verification of the todo-board backend (Express + Mongoose task board).

The routes in `src/routes/tasks.js`, `src/routes/logs.js` and the auth route
file are embedded as pure Lean functions over an explicit store state.
Timestamps (`Date.now()`, mongoose `lastModified`) are naturals (milliseconds);
document ids are naturals drawn from counters in the state.
-/

set_option maxHeartbeats 1000000

namespace TodoBoard

abbrev TaskId := Nat
abbrev UserId := Nat

/-- Modelled from the spec: bcryptjs is an external library; the salted hash
`bcrypt.hash(password, 10)` is represented symbolically by the password, the
cost factor, and the salt drawn for the call. -/
structure HashedPassword where
  plain : String
  cost : Nat
  salt : Nat
deriving Repr, DecidableEq

/-- Modelled from the spec: the User mongoose schema (`models/User.js`) is not
in src/; per the spec a User is {id, email (unique), passwordHash}. -/
structure User where
  id : UserId
  email : String
  password : HashedPassword
deriving Repr, DecidableEq

/-- Modelled from the spec: the Task mongoose schema (`models/Task.js`) is not
in src/; per the spec a Task is {id, title, description?, priority, status,
assignedUser?, lastModified}. -/
structure Task where
  id : TaskId
  title : String
  description : Option String
  priority : String
  status : String
  assignedUser : Option UserId
  lastModified : Nat
deriving Repr, DecidableEq

/-- Modelled from the spec: the Log mongoose schema (`models/Log.js`) is not in
src/; per the spec a LogEntry is {user (email string, denormalized), action,
timestamp}. -/
structure LogEntry where
  user : String
  action : String
  timestamp : Nat
deriving Repr, DecidableEq

/-- The document store shared by the routes: the users, tasks and logs
collections, plus counters standing for ObjectId generation. -/
structure BoardState where
  users : List User
  tasks : List Task
  logs : List LogEntry
  nextUserId : UserId
  nextTaskId : TaskId
deriving Repr, DecidableEq

def validStatuses : List String := ["Todo", "In Progress", "Done"]

def validPriorities : List String := ["Low", "Medium", "High"]

/-- The grouped shape `{ Todo: [], "In Progress": [], Done: [] }` returned by
GET /api/tasks and broadcast by `emitTaskUpdate`. -/
structure Grouped where
  todo : List Task
  inProgress : List Task
  done : List Task
deriving Repr, DecidableEq

/-- One step of `tasks.forEach((t) => { if (grouped[t.status]) push ... })`:
a task is appended to the bucket keyed by its status; an unrecognized status
hits no bucket (the route only warns). -/
def groupStep (g : Grouped) (t : Task) : Grouped :=
  if t.status == "Todo" then { g with todo := g.todo ++ [t] }
  else if t.status == "In Progress" then { g with inProgress := g.inProgress ++ [t] }
  else if t.status == "Done" then { g with done := g.done ++ [t] }
  else g

/-- Grouping of the full task list by status literal (GET /api/tasks body). -/
def groupTasks (tasks : List Task) : Grouped :=
  tasks.foldl groupStep { todo := [], inProgress := [], done := [] }

/-- `req.body.title` as a JS value: absent (undefined), present but not a
string (with its truthiness), or a string. -/
inductive TitleValue
  | undef
  | nonString (truthy : Bool)
  | str (s : String)
deriving Repr, DecidableEq

/-- The request body of POST /api/tasks. The route destructures only title,
description, priority and status; `assignedUser` is carried to show it is
never read. -/
structure CreateBody where
  title : TitleValue
  description : Option String
  priority : Option String
  status : Option String
  assignedUser : Option UserId
deriving Repr, DecidableEq

/-- The JS test `!title || typeof title !== "string"`: undefined and
non-string values are rejected either by falsiness or by the typeof check;
the empty string is falsy, hence also rejected. -/
def titleRejected : TitleValue → Bool
  | .undef => true
  | .nonString _ => true
  | .str s => s == ""

inductive CreateResult
  | badRequest (error : String)
  | created (task : Task)
deriving Repr, DecidableEq

def CreateResult.statusCode : CreateResult → Nat
  | .badRequest _ => 400
  | .created _ => 201

def CreateResult.isCreated : CreateResult → Bool
  | .created _ => true
  | _ => false

/-- Modelled from the spec: `new Task({title, description, priority, status})`
followed by `save()`; the missing schema supplies the generated id, leaves
assignedUser absent, and stamps lastModified at write time. -/
def newTask (id : TaskId) (title : String) (description : Option String)
    (priority status : String) (now : Nat) : Task :=
  { id := id, title := title, description := description, priority := priority,
    status := status, assignedUser := none, lastModified := now }

/-- POST /api/tasks (`router.post("/")` in src/routes/tasks.js): validates
title, status (defaulted to "Todo" when absent) and priority, then persists
the task and appends one log entry for the caller. -/
def createTask (st : BoardState) (caller : String) (body : CreateBody)
    (now : Nat) : CreateResult × BoardState :=
  let status := body.status.getD "Todo"
  match body.title with
  | .str title =>
    if title == "" then
      (.badRequest "Task title is required and must be a string", st)
    else if !(validStatuses.contains status) then
      (.badRequest "Invalid status", st)
    else if !(validPriorities.contains (body.priority.getD "")) then
      (.badRequest "Invalid priority", st)
    else
      let task := newTask st.nextTaskId title body.description
        (body.priority.getD "") status now
      let log : LogEntry :=
        { user := caller, action := "Created task: " ++ title, timestamp := now }
      (.created task,
        { st with tasks := st.tasks ++ [task], logs := st.logs ++ [log],
                  nextTaskId := st.nextTaskId + 1 })
  | _ => (.badRequest "Task title is required and must be a string", st)

/-- The patch part of the PUT /api/tasks/:id body (`...updates` after
destructuring away lastFetched); a field set to none is absent from the
request. An `assignedUser` of `some none` is an explicit null clearing the
assignment. -/
structure UpdatePatch where
  title : Option String
  description : Option String
  priority : Option String
  status : Option String
  assignedUser : Option (Option UserId)
deriving Repr, DecidableEq

/-- JS truthiness guard on a string patch field (`updates.status && ...`):
absent and empty-string values are falsy, so their validation is skipped. -/
def strFieldTruthy : Option String → Bool
  | none => false
  | some s => s != ""

def patchStatusRejected (p : UpdatePatch) : Bool :=
  strFieldTruthy p.status && !(validStatuses.contains (p.status.getD ""))

def patchPriorityRejected (p : UpdatePatch) : Bool :=
  strFieldTruthy p.priority && !(validPriorities.contains (p.priority.getD ""))

/-- `findByIdAndUpdate(id, { ...updates, lastModified: Date.now() })`: present
patch fields overwrite the document and lastModified is set to the call time. -/
def applyPatch (t : Task) (p : UpdatePatch) (now : Nat) : Task :=
  { id := t.id
    title := p.title.getD t.title
    description := match p.description with
      | some d => some d
      | none => t.description
    priority := p.priority.getD t.priority
    status := p.status.getD t.status
    assignedUser := p.assignedUser.getD t.assignedUser
    lastModified := now }

inductive UpdateResult
  | notFound (error : String)
  | conflict (error : String) (currentTask : Task)
  | badRequest (error : String)
  | ok (task : Task)
deriving Repr, DecidableEq

def UpdateResult.statusCode : UpdateResult → Nat
  | .notFound _ => 404
  | .conflict _ _ => 409
  | .badRequest _ => 400
  | .ok _ => 200

def UpdateResult.isConflict : UpdateResult → Bool
  | .conflict _ _ => true
  | _ => false

def UpdateResult.isOk : UpdateResult → Bool
  | .ok _ => true
  | _ => false

/-- JS truthiness of the `lastFetched` body field: undefined and the number 0
are falsy, every other timestamp is truthy. -/
def lastFetchedTruthy : Option Nat → Bool
  | none => false
  | some n => n != 0

/-- PUT /api/tasks/:id (`router.put("/:id")` in src/routes/tasks.js): 404 when
the id does not resolve; 409 with the current task when lastFetched is truthy
and the stored lastModified strictly exceeds it; 400 on a truthy invalid
status or priority in the patch; otherwise applies the patch, stamps
lastModified with the call time, and appends one log entry. -/
def updateTask (st : BoardState) (caller : String) (id : TaskId)
    (patch : UpdatePatch) (lastFetched : Option Nat) (now : Nat) :
    UpdateResult × BoardState :=
  match st.tasks.find? (fun t => t.id == id) with
  | none => (.notFound "Task not found", st)
  | some task =>
    if lastFetchedTruthy lastFetched && decide (task.lastModified > lastFetched.getD 0) then
      (.conflict "Conflict detected" task, st)
    else if patchStatusRejected patch then
      (.badRequest "Invalid status", st)
    else if patchPriorityRejected patch then
      (.badRequest "Invalid priority", st)
    else
      let updated := applyPatch task patch now
      let log : LogEntry :=
        { user := caller, action := "Updated task: " ++ updated.title,
          timestamp := now }
      (.ok updated,
        { st with
          tasks := st.tasks.map (fun t => if t.id == id then updated else t),
          logs := st.logs ++ [log] })

/-- `Task.countDocuments({ assignedUser: u._id, status: { $ne: "Done" } })`:
the number of tasks assigned to the user whose status is not Done. -/
def activeCount (tasks : List Task) (uid : UserId) : Nat :=
  (tasks.filter (fun t => t.assignedUser == some uid && t.status != "Done")).length

/-- One step of the reduce `(min, curr) => curr.count < min.count ? curr : min`
over `{user, count}` pairs; `none` is the initial `{user: null, count:
Infinity}` sentinel, which every real count beats. -/
def reduceStep (counts : UserId → Nat) (acc : Option (User × Nat)) (u : User) :
    Option (User × Nat) :=
  match acc with
  | none => some (u, counts u.id)
  | some (_, mc) => if counts u.id < mc then some (u, counts u.id) else acc

/-- The `leastBusyUser` computation of the smart-assign route: the first user
in enumeration order attaining the minimal active-task count, or none when no
users exist. -/
def leastBusy (counts : UserId → Nat) (users : List User) : Option User :=
  (users.foldl (reduceStep counts) none).map (fun p => p.1)

inductive AssignResult
  | notFound (error : String)
  | ok (task : Task)
deriving Repr, DecidableEq

def AssignResult.statusCode : AssignResult → Nat
  | .notFound _ => 404
  | .ok _ => 200

def AssignResult.isOk : AssignResult → Bool
  | .ok _ => true
  | _ => false

/-- POST /api/tasks/:id/smart-assign (`router.post("/:id/smart-assign")`):
404 "No users available" when the user store is empty, 404 "Task not found"
when the id does not resolve (the update of a missing id changes nothing);
otherwise assigns the least busy user, stamps lastModified, and appends one
log entry. -/
def smartAssign (st : BoardState) (caller : String) (id : TaskId) (now : Nat) :
    AssignResult × BoardState :=
  match leastBusy (activeCount st.tasks) st.users with
  | none => (.notFound "No users available", st)
  | some u =>
    match st.tasks.find? (fun t => t.id == id) with
    | none => (.notFound "Task not found", st)
    | some task =>
      let updated := { task with assignedUser := some u.id, lastModified := now }
      let log : LogEntry :=
        { user := caller,
          action := "Smart assigned task: " ++ updated.title ++ " to " ++ u.email,
          timestamp := now }
      (.ok updated,
        { st with
          tasks := st.tasks.map (fun t => if t.id == id then updated else t),
          logs := st.logs ++ [log] })

inductive DeleteResult
  | notFound (error : String)
  | ok (message : String)
deriving Repr, DecidableEq

def DeleteResult.statusCode : DeleteResult → Nat
  | .notFound _ => 404
  | .ok _ => 200

def DeleteResult.isOk : DeleteResult → Bool
  | .ok _ => true
  | _ => false

/-- DELETE /api/tasks/:id (`router.delete("/:id")`): 404 when absent,
otherwise removes the document and appends one log entry. -/
def deleteTask (st : BoardState) (caller : String) (id : TaskId) (now : Nat) :
    DeleteResult × BoardState :=
  match st.tasks.find? (fun t => t.id == id) with
  | none => (.notFound "Task not found", st)
  | some task =>
    let log : LogEntry :=
      { user := caller, action := "Deleted task: " ++ task.title,
        timestamp := now }
    (.ok "Task deleted",
      { st with tasks := st.tasks.filter (fun t => t.id != id),
                logs := st.logs ++ [log] })

/-- The signed JWT payload `{userId, email}` (the HMAC signature and 1-hour
expiry are outside the model). -/
structure Token where
  userId : UserId
  email : String
deriving Repr, DecidableEq

inductive RegisterResult
  | userExists
  | created (token : Token)
deriving Repr, DecidableEq

def RegisterResult.statusCode : RegisterResult → Nat
  | .userExists => 400
  | .created _ => 201

/-- POST /api/auth/register (`router.post("/register")` in the auth route
file): 400 "User already exists" when the email is already present; otherwise
stores the user with the salted bcrypt hash (cost 10) and returns a token
embedding {userId, email}. `salt` is the salt bcrypt draws for this call. -/
def register (st : BoardState) (email password : String) (salt : Nat) :
    RegisterResult × BoardState :=
  match st.users.find? (fun u => u.email == email) with
  | some _ => (.userExists, st)
  | none =>
    let user : User :=
      { id := st.nextUserId, email := email,
        password := { plain := password, cost := 10, salt := salt } }
    (.created { userId := user.id, email := email },
      { st with users := st.users ++ [user], nextUserId := st.nextUserId + 1 })

/-- An empty store, used to build concrete witnesses. -/
def emptyBoard : BoardState :=
  { users := [], tasks := [], logs := [], nextUserId := 0, nextTaskId := 0 }

/-- A concrete stored task last modified at time 5. -/
def cTask : Task :=
  { id := 1, title := "Write spec", description := none, priority := "High",
    status := "Todo", assignedUser := none, lastModified := 5 }

/-- A concrete store holding `cTask` and one user. -/
def cUser : User :=
  { id := 7, email := "a@x.com", password := { plain := "pw1", cost := 10, salt := 3 } }

def cBoard : BoardState :=
  { users := [cUser], tasks := [cTask], logs := [], nextUserId := 8, nextTaskId := 2 }

/-- The all-absent patch. -/
def emptyPatch : UpdatePatch :=
  { title := none, description := none, priority := none, status := none,
    assignedUser := none }

/-- A valid create body, used in concrete witnesses. -/
def wBody : CreateBody :=
  { title := .str "Ship it", description := none, priority := some "High",
    status := none, assignedUser := none }

/-- The task `wBody` creates on `cBoard` at time 9. -/
def wTask : Task := newTask 2 "Ship it" none "High" "Todo" 9

/-- Two users for the smart-assign witness: user 1 carries one active task,
user 2 none. -/
def dUserA : User :=
  { id := 1, email := "a@x.com", password := { plain := "p", cost := 10, salt := 0 } }

def dUserB : User :=
  { id := 2, email := "b@x.com", password := { plain := "q", cost := 10, salt := 0 } }

def dTaskBusy : Task :=
  { id := 1, title := "Busy", description := none, priority := "Low",
    status := "Todo", assignedUser := some 1, lastModified := 1 }

def dTaskFree : Task :=
  { id := 2, title := "Free", description := none, priority := "Low",
    status := "Todo", assignedUser := none, lastModified := 1 }

def dBoard : BoardState :=
  { users := [dUserA, dUserB], tasks := [dTaskBusy, dTaskFree], logs := [],
    nextUserId := 3, nextTaskId := 3 }

/-! ### Helper lemmas -/

theorem foldl_groupStep_todo (ts : List Task) : ∀ g : Grouped,
    (ts.foldl groupStep g).todo = g.todo ++ ts.filter (fun t => t.status == "Todo") := by
  induction ts with
  | nil => intro g; simp
  | cons t ts ih =>
    intro g
    rw [List.foldl_cons, ih, List.filter_cons]
    unfold groupStep
    by_cases h1 : t.status = "Todo"
    · simp [h1]
    · by_cases h2 : t.status = "In Progress"
      · simp [h1, h2]
      · by_cases h3 : t.status = "Done"
        · simp [h1, h2, h3]
        · simp [h1, h2, h3]

theorem foldl_groupStep_inProgress (ts : List Task) : ∀ g : Grouped,
    (ts.foldl groupStep g).inProgress
      = g.inProgress ++ ts.filter (fun t => t.status == "In Progress") := by
  induction ts with
  | nil => intro g; simp
  | cons t ts ih =>
    intro g
    rw [List.foldl_cons, ih, List.filter_cons]
    unfold groupStep
    by_cases h1 : t.status = "Todo"
    · simp [h1]
    · by_cases h2 : t.status = "In Progress"
      · simp [h1, h2]
      · by_cases h3 : t.status = "Done"
        · simp [h1, h2, h3]
        · simp [h1, h2, h3]

theorem foldl_groupStep_done (ts : List Task) : ∀ g : Grouped,
    (ts.foldl groupStep g).done = g.done ++ ts.filter (fun t => t.status == "Done") := by
  induction ts with
  | nil => intro g; simp
  | cons t ts ih =>
    intro g
    rw [List.foldl_cons, ih, List.filter_cons]
    unfold groupStep
    by_cases h1 : t.status = "Todo"
    · simp [h1]
    · by_cases h2 : t.status = "In Progress"
      · simp [h1, h2]
      · by_cases h3 : t.status = "Done"
        · simp [h1, h2, h3]
        · simp [h1, h2, h3]

theorem groupTasks_todo (ts : List Task) :
    (groupTasks ts).todo = ts.filter (fun t => t.status == "Todo") := by
  unfold groupTasks; rw [foldl_groupStep_todo]; rfl

theorem groupTasks_inProgress (ts : List Task) :
    (groupTasks ts).inProgress = ts.filter (fun t => t.status == "In Progress") := by
  unfold groupTasks; rw [foldl_groupStep_inProgress]; rfl

theorem groupTasks_done (ts : List Task) :
    (groupTasks ts).done = ts.filter (fun t => t.status == "Done") := by
  unfold groupTasks; rw [foldl_groupStep_done]; rfl

theorem find?_map_replace (l : List Task) (id : TaskId) (u : Task) (task : Task)
    (hu : u.id = id) (h : l.find? (fun t => t.id == id) = some task) :
    (l.map (fun t => if t.id == id then u else t)).find? (fun t => t.id == id)
      = some u := by
  induction l with
  | nil => simp at h
  | cons a l ih =>
    by_cases ha : a.id = id
    · simp [List.find?_cons, ha, hu]
    · have ha' : (a.id == id) = false := by simp [ha]
      rw [List.find?_cons_of_neg _ (by simp [ha])] at h
      rw [List.map_cons, if_neg (by simpa using ha),
        List.find?_cons_of_neg _ (by simp [ha])]
      exact ih h

theorem foldl_reduceStep_spec (counts : UserId → Nat) (l : List User) : ∀ b : User,
    ∃ r l1 l2,
      l.foldl (reduceStep counts) (some (b, counts b.id)) = some (r, counts r.id)
      ∧ b :: l = l1 ++ r :: l2
      ∧ (∀ v ∈ b :: l, counts r.id ≤ counts v.id)
      ∧ (∀ v ∈ l1, counts r.id < counts v.id) := by
  induction l with
  | nil =>
    intro b
    exact ⟨b, [], [], rfl, rfl, by simp, by simp⟩
  | cons u l ih =>
    intro b
    rw [List.foldl_cons]
    by_cases hc : counts u.id < counts b.id
    · have hstep : reduceStep counts (some (b, counts b.id)) u
          = some (u, counts u.id) := by
        simp [reduceStep, hc]
      rw [hstep]
      obtain ⟨r, l1, l2, h1, h2, h3, h4⟩ := ih u
      have hru : counts r.id ≤ counts u.id := h3 u (by simp)
      refine ⟨r, b :: l1, l2, h1, ?_, ?_, ?_⟩
      · simpa using congrArg (List.cons b) h2
      · intro v hv
        rcases List.mem_cons.mp hv with hvb | hv'
        · subst hvb; exact le_of_lt (lt_of_le_of_lt hru hc)
        · exact h3 v hv'
      · intro v hv
        rcases List.mem_cons.mp hv with hvb | hv'
        · subst hvb; exact lt_of_le_of_lt hru hc
        · exact h4 v hv'
    · have hstep : reduceStep counts (some (b, counts b.id)) u
          = some (b, counts b.id) := by
        simp [reduceStep, hc]
      rw [hstep]
      obtain ⟨r, l1, l2, h1, h2, h3, h4⟩ := ih b
      push_neg at hc
      cases l1 with
      | nil =>
        simp only [List.nil_append, List.cons.injEq] at h2
        obtain ⟨hbr, hl2⟩ := h2
        refine ⟨r, [], u :: l2, h1, ?_, ?_, by simp⟩
        · rw [List.nil_append, ← hbr, ← hl2]
        · intro v hv
          rcases List.mem_cons.mp hv with hvb | hv'
          · rw [hvb]; exact h3 b (by simp)
          · rcases List.mem_cons.mp hv' with hvu | hv''
            · rw [hvu]
              exact le_trans (h3 b (by simp)) hc
            · exact h3 v (by simp [hv''])
      | cons x l1' =>
        simp only [List.cons_append, List.cons.injEq] at h2
        obtain ⟨hbx, hl⟩ := h2
        subst hbx
        have hrb : counts r.id < counts b.id := h4 b (by simp)
        refine ⟨r, b :: u :: l1', l2, h1, ?_, ?_, ?_⟩
        · simp [hl]
        · intro v hv
          rcases List.mem_cons.mp hv with hvb | hv'
          · rw [hvb]; exact h3 b (by simp)
          · rcases List.mem_cons.mp hv' with hvu | hv''
            · rw [hvu]; exact le_trans (le_of_lt hrb) hc
            · exact h3 v (by simp [hv''])
        · intro v hv
          rcases List.mem_cons.mp hv with hvb | hv'
          · rw [hvb]; exact hrb
          · rcases List.mem_cons.mp hv' with hvu | hv''
            · rw [hvu]; exact lt_of_lt_of_le hrb hc
            · exact h4 v (by simp [hv''])

theorem leastBusy_spec (counts : UserId → Nat) (users : List User)
    (h : users ≠ []) :
    ∃ u l1 l2, leastBusy counts users = some u
      ∧ users = l1 ++ u :: l2
      ∧ (∀ v ∈ users, counts u.id ≤ counts v.id)
      ∧ (∀ v ∈ l1, counts u.id < counts v.id) := by
  cases users with
  | nil => exact absurd rfl h
  | cons b l =>
    obtain ⟨r, l1, l2, h1, h2, h3, h4⟩ := foldl_reduceStep_spec counts l b
    refine ⟨r, l1, l2, ?_, h2, h3, h4⟩
    unfold leastBusy
    rw [List.foldl_cons]
    have hstep : reduceStep counts none b = some (b, counts b.id) := rfl
    rw [hstep, h1]
    rfl

/-! ### Claim theorems -/

/-- C1 (amended): for a resolving id, a patch whose supplied status/priority
fields are valid, and a nonzero `lastFetched`, `updateTask` returns Conflict
iff the stored task's lastModified strictly exceeds `lastFetched`; otherwise
the patch fields are applied and — the call time being later than the stored
timestamp — the stored lastModified strictly increases. -/
theorem C1_update_conflict_iff (st : BoardState) (caller : String) (id : TaskId)
    (patch : UpdatePatch) (lf now : Nat) (task : Task)
    (hfind : st.tasks.find? (fun t => t.id == id) = some task)
    (hlf : lf ≠ 0)
    (hstatus : patchStatusRejected patch = false)
    (hpriority : patchPriorityRejected patch = false)
    (hclock : task.lastModified < now) :
    ((updateTask st caller id patch (some lf) now).1.isConflict = true
        ↔ lf < task.lastModified)
    ∧ (¬ lf < task.lastModified →
        (updateTask st caller id patch (some lf) now).1
            = .ok (applyPatch task patch now)
        ∧ (updateTask st caller id patch (some lf) now).2.tasks.find?
            (fun t => t.id == id) = some (applyPatch task patch now)
        ∧ task.lastModified < (applyPatch task patch now).lastModified) := by
  have htruthy : lastFetchedTruthy (some lf) = true := by
    simp [lastFetchedTruthy, hlf]
  have hid : task.id = id := by
    have := List.find?_some hfind
    simpa using this
  constructor
  · by_cases hst : lf < task.lastModified
    · simp [updateTask, hfind, htruthy, hst, UpdateResult.isConflict]
    · simp [updateTask, hfind, htruthy, hst, hstatus, hpriority,
        UpdateResult.isConflict]
  · intro hst
    refine ⟨?_, ?_, ?_⟩
    · simp [updateTask, hfind, htruthy, hst, hstatus, hpriority]
    · have hrep := find?_map_replace st.tasks id (applyPatch task patch now) task
        (by simp [applyPatch, hid]) hfind
      simpa [updateTask, hfind, htruthy, hst, hstatus, hpriority] using hrep
    · simpa [applyPatch] using hclock

/-- Witness for C1 at a concrete input: updating the task last modified at 5
with lastFetched 5 at time 9 does not conflict, applies the (empty) patch and
bumps lastModified from 5 to 9. -/
theorem C1_update_conflict_iff_witness :
    (updateTask cBoard "a@x.com" 1 emptyPatch (some 5) 9).1.isConflict = false
    ∧ (updateTask cBoard "a@x.com" 1 emptyPatch (some 5) 9).1
        = .ok (applyPatch cTask emptyPatch 9)
    ∧ cTask.lastModified < (applyPatch cTask emptyPatch 9).lastModified := by
  have h := C1_update_conflict_iff cBoard "a@x.com" 1 emptyPatch 5 9 cTask rfl
    (by decide) rfl rfl (by decide)
  have hns : ¬ (5 < cTask.lastModified) := by decide
  obtain ⟨h1, h2, h3⟩ := h.2 hns
  exact ⟨by rw [h1]; rfl, h1, h3⟩

/-- Counterexample to C1 as stated: with `lastFetched` equal to the valid
epoch timestamp 0 — a supplied value the route treats as falsy — the stored
lastModified (5) strictly exceeds lastFetched (0), yet the call does not
return Conflict: the optimistic check is skipped and the write goes through. -/
theorem C1_counterexample :
    (updateTask cBoard "a@x.com" 1 emptyPatch (some 0) 9).1.isConflict = false
    ∧ cTask.lastModified > 0
    ∧ (updateTask cBoard "a@x.com" 1 emptyPatch (some 0) 9).1
        = .ok (applyPatch cTask emptyPatch 9) := by
  refine ⟨rfl, by decide, rfl⟩

/-- C4: when the optimistic check fires, `updateTask` answers 409 Conflict
with the current stored task in the body, and the store is left unchanged (no
patch field is applied, lastModified is not bumped). -/
theorem C4_conflict_returns_current_task_unchanged (st : BoardState)
    (caller : String) (id : TaskId) (patch : UpdatePatch) (lf now : Nat)
    (task : Task)
    (hfind : st.tasks.find? (fun t => t.id == id) = some task)
    (hlf : lf ≠ 0) (hstale : lf < task.lastModified) :
    updateTask st caller id patch (some lf) now
      = (.conflict "Conflict detected" task, st)
    ∧ (UpdateResult.conflict "Conflict detected" task).statusCode = 409 := by
  have htruthy : lastFetchedTruthy (some lf) = true := by
    simp [lastFetchedTruthy, hlf]
  refine ⟨?_, rfl⟩
  simp [updateTask, hfind, htruthy, hstale]

/-- Witness for C4 at a concrete input: lastFetched 3 is staler than the
stored lastModified 5, so the call conflicts, echoes the stored task and
leaves the store untouched. -/
theorem C4_conflict_witness :
    updateTask cBoard "a@x.com" 1 emptyPatch (some 3) 9
      = (.conflict "Conflict detected" cTask, cBoard)
    ∧ (UpdateResult.conflict "Conflict detected" cTask).statusCode = 409 :=
  C4_conflict_returns_current_task_unchanged cBoard "a@x.com" 1 emptyPatch 3 9
    cTask rfl (by decide) (by decide)

/-- C9: the optimistic check runs only on a truthy `lastFetched`: when it is
omitted or 0 the call never returns Conflict, however recently the task was
modified, and a valid patch is written. -/
theorem C9_falsy_lastFetched_skips_check (st : BoardState) (caller : String)
    (id : TaskId) (patch : UpdatePatch) (now : Nat) (lf : Option Nat)
    (hlf : lf = none ∨ lf = some 0) :
    ((updateTask st caller id patch lf now).1.isConflict = false)
    ∧ (∀ task, st.tasks.find? (fun t => t.id == id) = some task →
        patchStatusRejected patch = false →
        patchPriorityRejected patch = false →
        (updateTask st caller id patch lf now).1
          = .ok (applyPatch task patch now)) := by
  have htruthy : lastFetchedTruthy lf = false := by
    rcases hlf with rfl | rfl <;> rfl
  constructor
  · cases hfind : st.tasks.find? (fun t => t.id == id) with
    | none => simp [updateTask, hfind, UpdateResult.isConflict]
    | some task =>
      by_cases hs : patchStatusRejected patch = true
      · simp [updateTask, hfind, htruthy, hs, UpdateResult.isConflict]
      · by_cases hp : patchPriorityRejected patch = true
        · simp [updateTask, hfind, htruthy, hs, hp, UpdateResult.isConflict]
        · simp [updateTask, hfind, htruthy, hs, hp, UpdateResult.isConflict]
  · intro task hfind hs hp
    simp [updateTask, hfind, htruthy, hs, hp]

/-- Witness for C9 at a concrete input: lastFetched 0 on the task last
modified at 5 — stale by the clock, yet no conflict and the write proceeds. -/
theorem C9_falsy_lastFetched_witness :
    (updateTask cBoard "a@x.com" 1 emptyPatch (some 0) 9).1.isConflict = false
    ∧ (updateTask cBoard "a@x.com" 1 emptyPatch (some 0) 9).1
        = .ok (applyPatch cTask emptyPatch 9) := by
  have h := C9_falsy_lastFetched_skips_check cBoard "a@x.com" 1 emptyPatch 9
    (some 0) (Or.inr rfl)
  exact ⟨h.1, h.2 cTask rfl rfl rfl⟩

/-- C2: smartAssign selects a user whose count of assigned tasks with status
≠ Done is ≤ every other user's count at call time, ties broken by the first
user in enumeration order; on success the task is assigned to exactly that
user with lastModified stamped. -/
theorem C2_smartAssign_least_busy (st : BoardState) (caller : String)
    (id : TaskId) (now : Nat) (h : st.users ≠ []) :
    ∃ u l1 l2,
      leastBusy (activeCount st.tasks) st.users = some u
      ∧ st.users = l1 ++ u :: l2
      ∧ (∀ v ∈ st.users, activeCount st.tasks u.id ≤ activeCount st.tasks v.id)
      ∧ (∀ v ∈ l1, activeCount st.tasks u.id < activeCount st.tasks v.id)
      ∧ (∀ task, st.tasks.find? (fun t => t.id == id) = some task →
          (smartAssign st caller id now).1
            = .ok { task with assignedUser := some u.id, lastModified := now }) := by
  obtain ⟨u, l1, l2, h1, h2, h3, h4⟩ := leastBusy_spec (activeCount st.tasks) st.users h
  refine ⟨u, l1, l2, h1, h2, h3, h4, ?_⟩
  intro task hfind
  simp [smartAssign, h1, hfind]

/-- Witness for C2 at a concrete input: the two-user board resolves the
selection, minimal and first among ties, and assigning task 2 succeeds. -/
theorem C2_smartAssign_least_busy_witness :
    ∃ u l1 l2,
      leastBusy (activeCount dBoard.tasks) dBoard.users = some u
      ∧ dBoard.users = l1 ++ u :: l2
      ∧ (∀ v ∈ dBoard.users,
          activeCount dBoard.tasks u.id ≤ activeCount dBoard.tasks v.id)
      ∧ (∀ v ∈ l1, activeCount dBoard.tasks u.id < activeCount dBoard.tasks v.id)
      ∧ (∀ task, dBoard.tasks.find? (fun t => t.id == 2) = some task →
          (smartAssign dBoard "a@x.com" 2 9).1
            = .ok { task with assignedUser := some u.id, lastModified := 9 }) :=
  C2_smartAssign_least_busy dBoard "a@x.com" 2 9 (by decide)

/-- C7: smartAssign fails 404 "No users available" when no users exist and
404 "Task not found" when the id does not resolve; in both cases the store is
unchanged — no task is assigned and nothing is logged. -/
theorem C7_smartAssign_not_found (st : BoardState) (caller : String)
    (id : TaskId) (now : Nat) :
    (st.users = [] →
      smartAssign st caller id now = (.notFound "No users available", st))
    ∧ (st.users ≠ [] → st.tasks.find? (fun t => t.id == id) = none →
      smartAssign st caller id now = (.notFound "Task not found", st))
    ∧ AssignResult.statusCode (.notFound "No users available") = 404
    ∧ AssignResult.statusCode (.notFound "Task not found") = 404 := by
  refine ⟨?_, ?_, rfl, rfl⟩
  · intro hu
    simp [smartAssign, hu, leastBusy]
  · intro hu hfind
    obtain ⟨u, l1, l2, h1, h2, h3, h4⟩ :=
      leastBusy_spec (activeCount st.tasks) st.users hu
    simp [smartAssign, h1, hfind]

theorem createTask_logs (st : BoardState) (caller : String) (body : CreateBody)
    (now : Nat) :
    if (createTask st caller body now).1.isCreated then
      ∃ e, (createTask st caller body now).2.logs = st.logs ++ [e]
        ∧ e.user = caller
    else (createTask st caller body now).2.logs = st.logs := by
  cases htitle : body.title with
  | undef => simp [createTask, htitle, CreateResult.isCreated]
  | nonString b => simp [createTask, htitle, CreateResult.isCreated]
  | str s =>
    by_cases h1 : s = ""
    · simp [createTask, htitle, h1, CreateResult.isCreated]
    · by_cases h2 : body.status.getD "Todo" ∈ validStatuses
      · by_cases h3 : body.priority.getD "" ∈ validPriorities
        · simp [createTask, htitle, h1, h2, h3, CreateResult.isCreated]
        · simp [createTask, htitle, h1, h2, h3, CreateResult.isCreated]
      · simp [createTask, htitle, h1, h2, CreateResult.isCreated]

theorem updateTask_logs (st : BoardState) (caller : String) (id : TaskId)
    (patch : UpdatePatch) (lastFetched : Option Nat) (now : Nat) :
    if (updateTask st caller id patch lastFetched now).1.isOk then
      ∃ e, (updateTask st caller id patch lastFetched now).2.logs
          = st.logs ++ [e] ∧ e.user = caller
    else (updateTask st caller id patch lastFetched now).2.logs = st.logs := by
  cases hfind : st.tasks.find? (fun t => t.id == id) with
  | none => simp [updateTask, hfind, UpdateResult.isOk]
  | some task =>
    by_cases hc : (lastFetchedTruthy lastFetched
        && decide (task.lastModified > lastFetched.getD 0)) = true
    · simp [updateTask, hfind, hc, UpdateResult.isOk]
    · by_cases hs : patchStatusRejected patch = true
      · simp [updateTask, hfind, hc, hs, UpdateResult.isOk]
      · by_cases hp : patchPriorityRejected patch = true
        · simp [updateTask, hfind, hc, hs, hp, UpdateResult.isOk]
        · simp [updateTask, hfind, hc, hs, hp, UpdateResult.isOk]

theorem deleteTask_logs (st : BoardState) (caller : String) (id : TaskId)
    (now : Nat) :
    if (deleteTask st caller id now).1.isOk then
      ∃ e, (deleteTask st caller id now).2.logs = st.logs ++ [e]
        ∧ e.user = caller
    else (deleteTask st caller id now).2.logs = st.logs := by
  cases hfind : st.tasks.find? (fun t => t.id == id) with
  | none => simp [deleteTask, hfind, DeleteResult.isOk]
  | some task => simp [deleteTask, hfind, DeleteResult.isOk]

theorem smartAssign_logs (st : BoardState) (caller : String) (id : TaskId)
    (now : Nat) :
    if (smartAssign st caller id now).1.isOk then
      ∃ e, (smartAssign st caller id now).2.logs = st.logs ++ [e]
        ∧ e.user = caller
    else (smartAssign st caller id now).2.logs = st.logs := by
  cases hlb : leastBusy (activeCount st.tasks) st.users with
  | none => simp [smartAssign, hlb, AssignResult.isOk]
  | some u =>
    cases hfind : st.tasks.find? (fun t => t.id == id) with
    | none => simp [smartAssign, hlb, hfind, AssignResult.isOk]
    | some task => simp [smartAssign, hlb, hfind, AssignResult.isOk]

/-- C3: each of the four mutating operations appends exactly one log entry
whose user is the caller's email when it succeeds, and appends nothing when
it fails. -/
theorem C3_one_log_per_mutation (st : BoardState) (caller : String)
    (body : CreateBody) (id : TaskId) (patch : UpdatePatch)
    (lastFetched : Option Nat) (now : Nat) :
    (if (createTask st caller body now).1.isCreated then
      ∃ e, (createTask st caller body now).2.logs = st.logs ++ [e]
        ∧ e.user = caller
     else (createTask st caller body now).2.logs = st.logs)
    ∧ (if (updateTask st caller id patch lastFetched now).1.isOk then
      ∃ e, (updateTask st caller id patch lastFetched now).2.logs
          = st.logs ++ [e] ∧ e.user = caller
     else (updateTask st caller id patch lastFetched now).2.logs = st.logs)
    ∧ (if (deleteTask st caller id now).1.isOk then
      ∃ e, (deleteTask st caller id now).2.logs = st.logs ++ [e]
        ∧ e.user = caller
     else (deleteTask st caller id now).2.logs = st.logs)
    ∧ (if (smartAssign st caller id now).1.isOk then
      ∃ e, (smartAssign st caller id now).2.logs = st.logs ++ [e]
        ∧ e.user = caller
     else (smartAssign st caller id now).2.logs = st.logs) :=
  ⟨createTask_logs st caller body now,
   updateTask_logs st caller id patch lastFetched now,
   deleteTask_logs st caller id now,
   smartAssign_logs st caller id now⟩

/-- C5: a successful createTask followed by listTasks places the created task
in exactly one of the three status buckets — the one matching its status, the
created status being one of the three literals — and any stored task whose
status is not one of the three literals is dropped from every bucket rather
than failing the call. -/
theorem C5_create_then_list_buckets (st : BoardState) (caller : String)
    (body : CreateBody) (now : Nat) (t : Task)
    (h : (createTask st caller body now).1 = .created t) :
    (t ∈ (groupTasks (createTask st caller body now).2.tasks).todo
        ↔ t.status = "Todo")
    ∧ (t ∈ (groupTasks (createTask st caller body now).2.tasks).inProgress
        ↔ t.status = "In Progress")
    ∧ (t ∈ (groupTasks (createTask st caller body now).2.tasks).done
        ↔ t.status = "Done")
    ∧ (t.status = "Todo" ∨ t.status = "In Progress" ∨ t.status = "Done")
    ∧ (∀ ts : List Task, ∀ u : Task, u.status ∉ validStatuses →
        u ∉ (groupTasks ts).todo ∧ u ∉ (groupTasks ts).inProgress
          ∧ u ∉ (groupTasks ts).done) := by
  have hdrop : ∀ ts : List Task, ∀ u : Task, u.status ∉ validStatuses →
      u ∉ (groupTasks ts).todo ∧ u ∉ (groupTasks ts).inProgress
        ∧ u ∉ (groupTasks ts).done := by
    intro ts u hu
    refine ⟨?_, ?_, ?_⟩
    · rw [groupTasks_todo]
      intro hm
      refine hu ?_
      have hp := (List.mem_filter.mp hm).2
      simp only [beq_iff_eq] at hp
      simp [validStatuses, hp]
    · rw [groupTasks_inProgress]
      intro hm
      refine hu ?_
      have hp := (List.mem_filter.mp hm).2
      simp only [beq_iff_eq] at hp
      simp [validStatuses, hp]
    · rw [groupTasks_done]
      intro hm
      refine hu ?_
      have hp := (List.mem_filter.mp hm).2
      simp only [beq_iff_eq] at hp
      simp [validStatuses, hp]
  cases htitle : body.title with
  | undef => simp [createTask, htitle] at h
  | nonString b => simp [createTask, htitle] at h
  | str s =>
    by_cases h1 : s = ""
    · simp [createTask, htitle, h1] at h
    · by_cases h2 : body.status.getD "Todo" ∈ validStatuses
      · by_cases h3 : body.priority.getD "" ∈ validPriorities
        · have ht : newTask st.nextTaskId s body.description
              (body.priority.getD "") (body.status.getD "Todo") now = t := by
            simpa [createTask, htitle, h1, h2, h3] using h
          have htasks : (createTask st caller body now).2.tasks
              = st.tasks ++ [t] := by
            simp [createTask, htitle, h1, h2, h3, ht]
          have hstat : t.status = body.status.getD "Todo" := by
            rw [← ht]; rfl
          have hmem : t ∈ st.tasks ++ [t] := by simp
          rw [htasks]
          refine ⟨?_, ?_, ?_, ?_, hdrop⟩
          · rw [groupTasks_todo]
            simp [List.mem_filter, hmem]
          · rw [groupTasks_inProgress]
            simp [List.mem_filter, hmem]
          · rw [groupTasks_done]
            simp [List.mem_filter, hmem]
          · rw [hstat]
            simpa [validStatuses] using h2
        · simp [createTask, htitle, h1, h2, h3] at h
      · simp [createTask, htitle, h1, h2] at h

/-- Witness for C5 at a concrete input: the task created by `wBody` lands in
the Todo bucket and in no other. -/
theorem C5_create_then_list_witness :
    wTask ∈ (groupTasks (createTask cBoard "a@x.com" wBody 9).2.tasks).todo
    ∧ wTask ∉ (groupTasks (createTask cBoard "a@x.com" wBody 9).2.tasks).inProgress
    ∧ wTask ∉ (groupTasks (createTask cBoard "a@x.com" wBody 9).2.tasks).done := by
  have h := C5_create_then_list_buckets cBoard "a@x.com" wBody 9 wTask rfl
  refine ⟨h.1.mpr rfl, fun hm => ?_, fun hm => ?_⟩
  · exact absurd (h.2.1.mp hm) (by decide)
  · exact absurd (h.2.2.1.mp hm) (by decide)

/-- C6 (amended): createTask answers 400 iff the title is missing, not a
string, or the empty string (a string, but falsy in JS), or the effective
status (default "Todo") or the supplied priority is not one of the enumerated
values; otherwise it persists the task — status defaulting to "Todo" when
omitted — and returns the created task with 201. -/
theorem C6_create_validation (st : BoardState) (caller : String)
    (body : CreateBody) (now : Nat) :
    ((∃ msg, (createTask st caller body now).1 = .badRequest msg) ↔
      (body.title = .undef ∨ (∃ b, body.title = .nonString b)
        ∨ body.title = .str ""
        ∨ body.status.getD "Todo" ∉ validStatuses
        ∨ body.priority.getD "" ∉ validPriorities))
    ∧ (∀ s, body.title = .str s → s ≠ "" →
        body.status.getD "Todo" ∈ validStatuses →
        body.priority.getD "" ∈ validPriorities →
        (createTask st caller body now).1
          = .created (newTask st.nextTaskId s body.description
              (body.priority.getD "") (body.status.getD "Todo") now)
        ∧ (createTask st caller body now).2.tasks
            = st.tasks ++ [newTask st.nextTaskId s body.description
                (body.priority.getD "") (body.status.getD "Todo") now]
        ∧ (createTask st caller body now).1.statusCode = 201
        ∧ (body.status = none →
            (newTask st.nextTaskId s body.description (body.priority.getD "")
              (body.status.getD "Todo") now).status = "Todo")) := by
  constructor
  · cases htitle : body.title with
    | undef => simp [createTask, htitle]
    | nonString b => simp [createTask, htitle]
    | str s =>
      by_cases h1 : s = ""
      · simp [createTask, htitle, h1]
      · by_cases h2 : body.status.getD "Todo" ∈ validStatuses
        · by_cases h3 : body.priority.getD "" ∈ validPriorities
          · simp [createTask, htitle, h1, h2, h3]
          · simp [createTask, htitle, h1, h2, h3]
        · simp [createTask, htitle, h1, h2]
  · intro s hts h1 h2 h3
    refine ⟨?_, ?_, ?_, ?_⟩
    · simp [createTask, hts, h1, h2, h3]
    · simp [createTask, hts, h1, h2, h3]
    · simp [createTask, hts, h1, h2, h3, CreateResult.statusCode]
    · intro hn
      simp [newTask, hn]

/-- Counterexample to C6 as stated: a body whose title is the string "" —
present and a string, with valid priority "High" and status defaulting to
"Todo" — is refused with 400, although the claim's iff predicts success. -/
theorem C6_counterexample :
    (createTask cBoard "a@x.com"
        { title := .str "", description := none, priority := some "High",
          status := none, assignedUser := none } 9).1
      = .badRequest "Task title is required and must be a string"
    ∧ "High" ∈ validPriorities ∧ "Todo" ∈ validStatuses := by
  exact ⟨rfl, by decide, by decide⟩

/-- C8: register refuses a duplicate email, creating no user and issuing no
token; otherwise it stores the user with a salted bcrypt hash (cost factor
10) of the password and returns a token embedding the fresh user's id and the
email. -/
theorem C8_register_conflict_or_token (st : BoardState)
    (email password : String) (salt : Nat) :
    ((∃ u, u ∈ st.users ∧ u.email = email) →
      register st email password salt = (.userExists, st))
    ∧ ((∀ u ∈ st.users, u.email ≠ email) →
      register st email password salt
        = (.created { userId := st.nextUserId, email := email },
            { st with
              users := st.users ++
                [{ id := st.nextUserId, email := email,
                   password := { plain := password, cost := 10, salt := salt } }],
              nextUserId := st.nextUserId + 1 })) := by
  constructor
  · rintro ⟨u, hu, he⟩
    have hsome : (st.users.find? (fun v => v.email == email)).isSome := by
      rw [List.find?_isSome]
      exact ⟨u, hu, by simp [he]⟩
    cases hfind : st.users.find? (fun v => v.email == email) with
    | none => rw [hfind] at hsome; simp at hsome
    | some v => simp [register, hfind]
  · intro hall
    have hfind : st.users.find? (fun v => v.email == email) = none := by
      rw [List.find?_eq_none]
      intro u hu
      simp [hall u hu]
    simp [register, hfind]

/-- C10: the create route reads only title, description, priority and status
from the body: its outcome is unchanged under any assignedUser field in the
request, and a created task carries no assignedUser. -/
theorem C10_create_ignores_assignedUser (st : BoardState) (caller : String)
    (body : CreateBody) (now : Nat) :
    (∀ t, (createTask st caller body now).1 = .created t →
      t.assignedUser = none)
    ∧ (∀ au, createTask st caller { body with assignedUser := au } now
        = createTask st caller body now) := by
  constructor
  · intro t h
    cases htitle : body.title with
    | undef => simp [createTask, htitle] at h
    | nonString b => simp [createTask, htitle] at h
    | str s =>
      by_cases h1 : s = ""
      · simp [createTask, htitle, h1] at h
      · by_cases h2 : body.status.getD "Todo" ∈ validStatuses
        · by_cases h3 : body.priority.getD "" ∈ validPriorities
          · have ht : newTask st.nextTaskId s body.description
                (body.priority.getD "") (body.status.getD "Todo") now = t := by
              simpa [createTask, htitle, h1, h2, h3] using h
            rw [← ht]
            rfl
          · simp [createTask, htitle, h1, h2, h3] at h
        · simp [createTask, htitle, h1, h2] at h
  · intro au
    rfl

end TodoBoard
